import Mathlib

/-!
# Verification of the `pallet-pass-jwt` registry and JWT validator

A shallow embedding of the issuer registry / JWKS voting pallet
(`src/pallet-jwt/src/lib.rs`) and of the two JWT-validation crates
(`src/validator/src/lib.rs` and `src/src/lib.rs`), together with theorems
settling the specification claims about them.

Modelling conventions:
* `u8` bytes are `Nat`; byte strings (`BoundedVec<u8, _>`) are `List Nat`.
* Account ids are `Nat`.
* Storage maps are association lists; `try_mutate`-style in-place updates keep
  the key at its position, fresh keys are appended.  The iteration order of
  `CounterProposedJwksHash::iter_prefix` (which Substrate leaves unspecified:
  it is ordered by key hash) is modelled by the list order of the per-domain
  counter list.
* `u32` counters saturate at `2 ^ 32 - 1` (`saturating_add`).
* The 256-bit blake2 content hash is modelled as the identity on the hashed
  bytes: every property proved below depends only on the hash being a
  deterministic function of its input that is collision-free on the inputs
  involved.
* `serde_json` parsing and canonical (`BTreeMap`-key-ordered) serialization
  are modelled by an executable JSON parser and serializer covering the
  integer fragment of JSON (object keys sorted bytewise, duplicate keys
  last-wins, no float/exponent literals, no `\u` escapes); all claims are
  settled on inputs inside this fragment.
* FRAME executes every `#[pallet::call]` transactionally: a dispatchable
  returning `Err` has all of its storage writes rolled back.  An extrinsic is
  therefore `State → Except Error State`, and `dispatchState` realises the
  observable transition (on an error the pre-state is kept).
-/

deriving instance DecidableEq for Except

/-! ## JSON model (serde_json fragment) -/

/-- `serde_json::Value` with objects held as `BTreeMap`-style sorted key lists. -/
inductive Json where
  | null : Json
  | bool (b : Bool) : Json
  | num (n : Int) : Json
  | str (s : List Nat) : Json
  | arr (elems : List Json) : Json
  | obj (fields : List (List Nat × Json)) : Json
deriving Repr

/-- Bytewise lexicographic order on byte strings (the `BTreeMap<String, _>`
key order used by `serde_json::Value` objects). -/
def bytesLt : List Nat → List Nat → Bool
  | [], [] => false
  | [], _ :: _ => true
  | _ :: _, [] => false
  | x :: xs, y :: ys => if x < y then true else if y < x then false else bytesLt xs ys

/-- Insert a key/value pair into a sorted field list, replacing an equal key
(`BTreeMap` insert: duplicate keys last-wins). -/
def objInsert (k : List Nat) (v : Json) : List (List Nat × Json) → List (List Nat × Json)
  | [] => [(k, v)]
  | (k', v') :: rest =>
    if k = k' then (k, v) :: rest
    else if bytesLt k k' then (k, v) :: (k', v') :: rest
    else (k', v') :: objInsert k v rest

/-- JSON whitespace: space, tab, line feed, carriage return. -/
def isJsonWs (c : Nat) : Bool :=
  c == 32 || c == 9 || c == 10 || c == 13

def skipWs : List Nat → List Nat
  | [] => []
  | c :: rest => if isJsonWs c then skipWs rest else c :: rest

/-- Short escape sequences `\" \\ \/ \n \t \r \b \f` (the `\u` form is outside
the modelled fragment). -/
def unescapeByte (c : Nat) : Option Nat :=
  if c == 34 then some 34
  else if c == 92 then some 92
  else if c == 47 then some 47
  else if c == 110 then some 10
  else if c == 116 then some 9
  else if c == 114 then some 13
  else if c == 98 then some 8
  else if c == 102 then some 12
  else none

/-- Parse the body of a JSON string after the opening quote; returns the
unescaped content and the input after the closing quote.  Raw control
characters are rejected, as in serde. -/
def parseStringBody : List Nat → Option (List Nat × List Nat)
  | [] => none
  | 34 :: rest => some ([], rest)
  | 92 :: c :: rest =>
    match unescapeByte c with
    | none => none
    | some e =>
      match parseStringBody rest with
      | none => none
      | some (s, r) => some (e :: s, r)
  | c :: rest =>
    if c < 32 then none
    else
      match parseStringBody rest with
      | none => none
      | some (s, r) => some (c :: s, r)

def takeDigits : List Nat → List Nat × List Nat
  | [] => ([], [])
  | c :: rest =>
    if 48 ≤ c && c ≤ 57 then
      let (ds, r) := takeDigits rest
      (c :: ds, r)
    else ([], c :: rest)

def digitsToNat (ds : List Nat) : Nat :=
  ds.foldl (fun acc d => acc * 10 + (d - 48)) 0

/-- Parse a JSON integer literal (optional minus, digits).  Fraction or
exponent suffixes are outside the modelled fragment and rejected. -/
def parseNumber (input : List Nat) : Option (Json × List Nat) :=
  let (neg, rest) :=
    match input with
    | 45 :: r => (true, r)
    | _ => (false, input)
  match takeDigits rest with
  | ([], _) => none
  | (ds, r) =>
    match r with
    | 46 :: _ => none
    | 101 :: _ => none
    | 69 :: _ => none
    | _ =>
      let n : Int := Int.ofNat (digitsToNat ds)
      some (.num (if neg then -n else n), r)

mutual

/-- Fuel-indexed parser for a JSON value, mirroring
`serde_json::from_slice::<serde_json::Value>`. -/
def parseValue : Nat → List Nat → Option (Json × List Nat)
  | 0, _ => none
  | Nat.succ fuel, input =>
    match skipWs input with
    | 110 :: 117 :: 108 :: 108 :: rest => some (.null, rest)
    | 116 :: 114 :: 117 :: 101 :: rest => some (.bool true, rest)
    | 102 :: 97 :: 108 :: 115 :: 101 :: rest => some (.bool false, rest)
    | 34 :: rest =>
      match parseStringBody rest with
      | none => none
      | some (s, r) => some (.str s, r)
    | 91 :: rest => parseArrayItems fuel (skipWs rest) []
    | 123 :: rest => parseObjFields fuel (skipWs rest) []
    | other => parseNumber other

/-- Array items after `[`; `acc` holds the items parsed so far.  A trailing
comma is rejected, as in serde. -/
def parseArrayItems : Nat → List Nat → List Json → Option (Json × List Nat)
  | 0, _, _ => none
  | Nat.succ fuel, input, acc =>
    match input, acc with
    | 93 :: rest, [] => some (.arr [], rest)
    | _, _ =>
      match parseValue fuel input with
      | none => none
      | some (v, r) =>
        match skipWs r with
        | 44 :: r2 => parseArrayItems fuel (skipWs r2) (acc ++ [v])
        | 93 :: r2 => some (.arr (acc ++ [v]), r2)
        | _ => none

/-- Object fields after the opening brace; fields accumulate through
`objInsert` (sorted keys, duplicate keys last-wins, as `BTreeMap`). -/
def parseObjFields : Nat → List Nat → List (List Nat × Json) → Option (Json × List Nat)
  | 0, _, _ => none
  | Nat.succ fuel, input, acc =>
    match input, acc with
    | 125 :: rest, [] => some (.obj [], rest)
    | _, _ =>
      match input with
      | 34 :: rest =>
        match parseStringBody rest with
        | none => none
        | some (k, r) =>
          match skipWs r with
          | 58 :: r2 =>
            match parseValue fuel r2 with
            | none => none
            | some (v, r3) =>
              match skipWs r3 with
              | 44 :: r4 => parseObjFields fuel (skipWs r4) (objInsert k v acc)
              | 125 :: r4 => some (.obj (objInsert k v acc), r4)
              | _ => none
          | _ => none
      | _ => none

end

/-- `serde_json::from_slice::<serde_json::Value>`: parse one value and require
that only whitespace remains. -/
def parseJson (input : List Nat) : Option Json :=
  match parseValue (2 * input.length + 2) input with
  | none => none
  | some (v, rest) => if (skipWs rest).isEmpty then some v else none

def natDecimalDigits : Nat → Nat → List Nat
  | 0, _ => []
  | Nat.succ fuel, n =>
    if n = 0 then []
    else natDecimalDigits fuel (n / 10) ++ [48 + n % 10]

/-- Decimal byte representation of an integer. -/
def intToBytes (n : Int) : List Nat :=
  match n with
  | .ofNat 0 => [48]
  | .ofNat m => natDecimalDigits m m
  | .negSucc m => 45 :: natDecimalDigits (m + 1) (m + 1)

/-- serde escaping of a string byte: quote, backslash and the short control
escapes; other control characters get the `\u00XX` form. -/
def escapeByte (c : Nat) : List Nat :=
  if c == 34 then [92, 34]
  else if c == 92 then [92, 92]
  else if c == 10 then [92, 110]
  else if c == 9 then [92, 116]
  else if c == 13 then [92, 114]
  else if c == 8 then [92, 98]
  else if c == 12 then [92, 102]
  else if c < 32 then
    let hi := c / 16
    let lo := c % 16
    [92, 117, 48, 48, if hi < 10 then 48 + hi else 87 + hi, if lo < 10 then 48 + lo else 87 + lo]
  else [c]

def escapeBytes (s : List Nat) : List Nat :=
  (s.map escapeByte).flatten

mutual

/-- `serde_json::to_string` on a `Value`: compact form, object keys already in
sorted order. -/
def serializeJson : Json → List Nat
  | .null => [110, 117, 108, 108]
  | .bool true => [116, 114, 117, 101]
  | .bool false => [102, 97, 108, 115, 101]
  | .num n => intToBytes n
  | .str s => 34 :: escapeBytes s ++ [34]
  | .arr es => 91 :: serializeArr es ++ [93]
  | .obj fs => 123 :: serializeObj fs ++ [125]

def serializeArr : List Json → List Nat
  | [] => []
  | [v] => serializeJson v
  | v :: rest => serializeJson v ++ [44] ++ serializeArr rest

def serializeObj : List (List Nat × Json) → List Nat
  | [] => []
  | [(k, v)] => 34 :: escapeBytes k ++ [34, 58] ++ serializeJson v
  | (k, v) :: rest => 34 :: escapeBytes k ++ [34, 58] ++ serializeJson v ++ [44] ++ serializeObj rest

end

/-- ASCII byte string helper for concrete inputs. -/
def bytesOf (s : String) : List Nat :=
  s.toList.map Char.toNat

/-! ## Pallet storage model (`src/pallet-jwt/src/lib.rs`) -/

/-- Association-list storage map: lookup by key. -/
def mfind {κ ν : Type} [DecidableEq κ] : List (κ × ν) → κ → Option ν
  | [], _ => none
  | (k', v') :: rest, k => if k' = k then some v' else mfind rest k

/-- Association-list storage map: insert/overwrite, keeping the position of an
existing key and appending a fresh one. -/
def minsert {κ ν : Type} [DecidableEq κ] : List (κ × ν) → κ → ν → List (κ × ν)
  | [], k, v => [(k, v)]
  | (k', v') :: rest, k, v =>
    if k' = k then (k, v) :: rest else (k', v') :: minsert rest k v

/-- Association-list storage map: remove a key. -/
def mremove {κ ν : Type} [DecidableEq κ] : List (κ × ν) → κ → List (κ × ν)
  | [], _ => []
  | (k', v') :: rest, k =>
    if k' = k then mremove rest k else (k', v') :: mremove rest k

/-- The pallet `Config` constants plus the external collaborators the calls
consult: `T::Validators::validators()` (the authorized voter set). -/
structure Config where
  maxLengthIssuerDomain : Nat
  maxLengthIssuerOpenIdURL : Nat
  maxLengthIssuerJWKS : Nat
  minUpdateInterval : Nat
  maxUpdateInterval : Nat
  maxProposersPerIssuer : Nat
  validators : List Nat
deriving DecidableEq, Repr

/-- The `Issuer` struct stored under a domain. -/
structure Issuer where
  open_id_url : Option (List Nat)
  interval_update : Option Nat
  is_enabled : Bool
deriving DecidableEq, Repr

/-- The pallet `Error` enum. -/
inductive Error where
  | IssuerAlreadyExists
  | IssuerDomainTooLong
  | IssuerJWKSTooLong
  | IssuerOpenIdURLTooLong
  | IssuerDoesNotExist
  | IssuerUpdateIntervalAboveMax
  | IssuerUpdateIntervalNotMultipleOfBlock
  | IssuerOpenIdURLOrJWKSNotProvided
  | OnlyGovernanceCanUpdateIssuer
  | OnlyGovernanceCanDeleteIssuer
  | InvalidJson
  | JsonTooLong
  | AlreadyProposedForJWKS
  | OnlyValidatorsCanProposeJWKS
  | DomainNotRegistered
  | MaxProposersPerIssuerExceeded
deriving DecidableEq, Repr

/-- The pallet `Event` enum (fields restricted to the ones deposited). -/
inductive Event where
  | IssuerRegistered (who : Nat) (domain : List Nat)
  | IssuerUpdated (who : Nat) (domain : List Nat)
  | IssuerDeleted (who : Nat) (domain : List Nat)
  | IssuerEnabledUpdated (who : Nat) (domain : List Nat) (is_enabled : Bool)
  | IssuerIntervalUpdateUpdated (who : Nat) (domain : List Nat) (interval_update : Option Nat)
  | IssuerJWKSUpdated (who : Nat) (domain : List Nat)
  | IssuerOpenIdURLUpdated (who : Nat) (domain : List Nat)
deriving DecidableEq, Repr

/-- The five pallet storage items plus the deposited event list.
`counterProposedJwksHash` maps a domain to its per-content-hash counter list;
the list order models the (unspecified) storage iteration order of
`iter_prefix`. -/
structure State where
  issuerMap : List (List Nat × Issuer)
  jwksMap : List (List Nat × List Nat)
  accountsProposedForIssuer : List (List Nat × List Nat)
  jwksHash : List (List Nat × List Nat)
  counterProposedJwksHash : List (List Nat × List (List Nat × Nat))
  counterIntervalUpdateIssuer : List (List Nat × Nat)
  events : List Event
deriving DecidableEq, Repr

/-- `deposit_event`. -/
def emitEvent (s : State) (e : Event) : State :=
  { s with events := s.events ++ [e] }

/-- FRAME dispatches every `#[pallet::call]` transactionally: on `Err` every
storage write of the call is rolled back, so the observable post-state of a
failed extrinsic is the pre-state. -/
def dispatchState (r : Except Error State) (s : State) : State :=
  match r with
  | .ok s' => s'
  | .error _ => s

/-- `Pallet::validate_json`: parse the bytes as JSON (`InvalidJson` on
failure), re-serialize canonically, and enforce the length bound
(`JsonTooLong`). -/
def validate_json (maxLen : Nat) (json : List Nat) : Except Error (List Nat) :=
  match parseJson json with
  | none => .error .InvalidJson
  | some parsed =>
    let bytes := serializeJson parsed
    if bytes.length > maxLen then .error .JsonTooLong
    else .ok bytes

/-- `Pallet::validate_interval_update`: clamp a present interval into
`[MinUpdateInterval, MaxUpdateInterval]`. -/
def validate_interval_update (cfg : Config) : Option Nat → Option Nat
  | none => none
  | some v => some (min (max v cfg.minUpdateInterval) cfg.maxUpdateInterval)

/-- `Pallet::register_issuer` (after `RegisterOrigin::ensure_origin` has
resolved the caller `who`): fail on a present domain, insert the `Issuer`
with `is_enabled = true`, then validate and store a supplied JWKS. -/
def register_issuer (cfg : Config) (s : State) (who : Nat) (domain : List Nat)
    (open_id_url : Option (List Nat)) (jwks : Option (List Nat))
    (interval_update : Option Nat) : Except Error State :=
  match mfind s.issuerMap domain with
  | some _ => .error .IssuerAlreadyExists
  | none =>
    let issuer : Issuer :=
      { open_id_url := open_id_url
        interval_update := validate_interval_update cfg interval_update
        is_enabled := true }
    let s1 := { s with issuerMap := minsert s.issuerMap domain issuer }
    match jwks with
    | none => .ok (emitEvent s1 (.IssuerRegistered who domain))
    | some j =>
      match validate_json cfg.maxLengthIssuerJWKS j with
      | .error e => .error e
      | .ok canonical =>
        .ok (emitEvent { s1 with jwksMap := minsert s1.jwksMap domain canonical }
          (.IssuerRegistered who domain))

/-- `Pallet::delete_issuer`: remove the `Issuer` entry (failing when absent),
then remove the domain's `JwksMap` and `CounterIntervalUpdateIssuer` entries.
`AccountsProposedForIssuer` and `CounterProposedJwksHash` are not touched. -/
def delete_issuer (s : State) (who : Nat) (domain : List Nat) : Except Error State :=
  match mfind s.issuerMap domain with
  | none => .error .IssuerDoesNotExist
  | some _ =>
    .ok (emitEvent
      { s with
        issuerMap := mremove s.issuerMap domain
        jwksMap := mremove s.jwksMap domain
        counterIntervalUpdateIssuer := mremove s.counterIntervalUpdateIssuer domain }
      (.IssuerDeleted who domain))

/-- `Pallet::set_enabled`: inside the mutate closure an unchanged flag returns
`Ok` early without writing; the `IssuerEnabledUpdated` event is deposited
after the closure on every `Ok`. -/
def set_enabled (s : State) (who : Nat) (domain : List Nat) (is_enabled : Bool) :
    Except Error State :=
  match mfind s.issuerMap domain with
  | none => .error .IssuerDoesNotExist
  | some issuer =>
    let s1 :=
      if issuer.is_enabled = is_enabled then s
      else { s with issuerMap := minsert s.issuerMap domain { issuer with is_enabled := is_enabled } }
    .ok (emitEvent s1 (.IssuerEnabledUpdated who domain is_enabled))

/-- `Pallet::set_open_id_url`: inside the mutate closure an unchanged URL
returns `Ok` early without writing; the `IssuerOpenIdURLUpdated` event is
deposited after the closure on every `Ok`. -/
def set_open_id_url (s : State) (who : Nat) (domain : List Nat) (open_id_url : List Nat) :
    Except Error State :=
  match mfind s.issuerMap domain with
  | none => .error .IssuerDoesNotExist
  | some issuer =>
    let s1 :=
      if issuer.open_id_url = some open_id_url then s
      else { s with issuerMap := minsert s.issuerMap domain { issuer with open_id_url := some open_id_url } }
    .ok (emitEvent s1 (.IssuerOpenIdURLUpdated who domain))

/-- `blake2_256` content hash, modelled as the identity on the hashed bytes
(collision-resistant digest: only determinism and freedom from collisions on
the involved inputs are used). -/
def blake2_256 (bytes : List Nat) : List Nat := bytes

/-- `u32::saturating_add(1)`. -/
def satAdd1 (c : Nat) : Nat := min (c + 1) (2 ^ 32 - 1)

/-- `CounterProposedJwksHash::mutate(domain, hash, |c| c.saturating_add(1))`
restricted to one domain's counter list (`ValueQuery`: an absent key reads 0
and is created). -/
def bumpCounter : List (List Nat × Nat) → List Nat → List (List Nat × Nat)
  | [], h => [(h, satAdd1 0)]
  | (k, c) :: rest, h =>
    if k = h then (k, satAdd1 c) :: rest else (k, c) :: bumpCounter rest h

/-- The storage writes of a successful `propose_jwks` (steps 3–6 of the
call): append the proposer, store the blob if its hash is new, bump the
(domain, hash) counter, deposit the event. -/
def proposePost (s : State) (who : Nat) (domain : List Nat)
    (jwks : List Nat) : State :=
  let jwks_hash := blake2_256 jwks
  let vec := (mfind s.accountsProposedForIssuer domain).getD []
  let s1 := { s with accountsProposedForIssuer := minsert s.accountsProposedForIssuer domain (vec ++ [who]) }
  let s2 :=
    if (mfind s1.jwksHash jwks_hash).isSome then s1
    else { s1 with jwksHash := minsert s1.jwksHash jwks_hash jwks }
  let pairs := (mfind s2.counterProposedJwksHash domain).getD []
  let s3 := { s2 with counterProposedJwksHash := minsert s2.counterProposedJwksHash domain (bumpCounter pairs jwks_hash) }
  emitEvent s3 (.IssuerJWKSUpdated who domain)

/-- `Pallet::propose_jwks`: validator-only origin, issuer must exist, hash the
raw JWKS bytes, record the proposer (duplicate and capacity checks), store
the blob if the hash is new, bump the (domain, hash) counter. -/
def propose_jwks (cfg : Config) (s : State) (who : Nat) (domain : List Nat)
    (jwks : List Nat) : Except Error State :=
  if ¬ who ∈ cfg.validators then .error .OnlyValidatorsCanProposeJWKS
  else if (mfind s.issuerMap domain).isNone then .error .IssuerDoesNotExist
  else
    let vec := (mfind s.accountsProposedForIssuer domain).getD []
    if who ∈ vec then .error .AlreadyProposedForJWKS
    else if ¬ vec.length < cfg.maxProposersPerIssuer then .error .MaxProposersPerIssuerExceeded
    else .ok (proposePost s who domain jwks)

/-- One iteration of the `for`-loop of `get_jwks_with_higher_count`: keep the
current best unless the new pair's counter is strictly higher
(`Some((_, best_cnt)) if counter <= best_cnt` keeps, everything else
replaces). -/
def bestStep (best : Option (List Nat × Nat)) (p : List Nat × Nat) :
    Option (List Nat × Nat) :=
  match best with
  | some q => if p.2 ≤ q.2 then best else some p
  | none => some p

/-- The `for`-loop of `get_jwks_with_higher_count`: keep the pair with the
strictly highest counter, the first one encountered winning ties. -/
def bestCount (pairs : List (List Nat × Nat)) : Option (List Nat × Nat) :=
  pairs.foldl bestStep none

/-- `Pallet::get_jwks_with_higher_count`: scan the domain's (hash, counter)
pairs, resolve the winning hash through `JwksHash`, and fall back to the
empty byte string. -/
def get_jwks_with_higher_count (s : State) (domain : List Nat) : List Nat :=
  let pairs := (mfind s.counterProposedJwksHash domain).getD []
  match bestCount pairs with
  | some (winning_hash, _) =>
    match mfind s.jwksHash winning_hash with
    | some jwks => jwks
    | none => []
  | none => []

/-- `Pallet::set_jwks` (the tally): validator-only origin, issuer must exist,
install the winning JWKS into `JwksMap`, skipping the write and the event
when it is unchanged. -/
def set_jwks (cfg : Config) (s : State) (who : Nat) (domain : List Nat) :
    Except Error State :=
  if ¬ who ∈ cfg.validators then .error .OnlyValidatorsCanProposeJWKS
  else if (mfind s.issuerMap domain).isNone then .error .IssuerDoesNotExist
  else
    let winning_jwks := get_jwks_with_higher_count s domain
    if mfind s.jwksMap domain = some winning_jwks then .ok s
    else .ok (emitEvent { s with jwksMap := minsert s.jwksMap domain winning_jwks }
      (.IssuerJWKSUpdated who domain))

/-- Sequential dispatch of `propose_jwks` by a list of voters (the harness for
the first-`P`-succeed property). -/
def proposeSeq (cfg : Config) (s : State) (voters : List Nat) (domain : List Nat)
    (jwks : List Nat) : Except Error State :=
  match voters with
  | [] => .ok s
  | v :: vs =>
    match propose_jwks cfg s v domain jwks with
    | .error e => .error e
    | .ok s' => proposeSeq cfg s' vs domain jwks

/-! ## JWT validator model (`src/validator/src/lib.rs` and `src/src/lib.rs`)

The `jsonwebtoken` crate is an external collaborator: its primitives
(`decode_header`, `DecodingKey::from_rsa_components`, `crypto::verify`,
`decode::<Claims>`) are parameters of the embedding (`Option`-valued, `none`
standing for the primitive's error), while everything written in this
repository (`get_kid_from_token`, `get_jwk`, `get_public_key`,
`get_signature`, `get_message`, `verify_jwt`, claim checks) is embedded
concretely.  Tokens and kid strings are `List Char`. -/

/-- The `jsonwebtoken::Header` fields consulted by this repository. -/
structure JwtHeader where
  kid : Option (List Char)
deriving DecidableEq, Repr

/-- `jsonwebtoken::jwk::AlgorithmParameters`, restricted to the RSA components
the code reads. -/
inductive AlgorithmParameters where
  | RSA (n e : List Char)
  | other
deriving DecidableEq, Repr

/-- A `jsonwebtoken::jwk::Jwk`: the `common.key_id` and the algorithm
parameters. -/
structure Jwk where
  key_id : Option (List Char)
  algorithm : AlgorithmParameters
deriving DecidableEq, Repr

structure JwkSet where
  keys : List Jwk
deriving DecidableEq, Repr

/-- The `ErrorInJwt` enum (identical in both crates). -/
inductive ErrorInJwt where
  | InvalidJwt
  | InvalidJwks
  | InvalidJwk
  | InvalidJson
  | InvalidToken
  | TokenExpired
  | AlgorithmNotSupported
  | NoIssuer
  | NoSub
  | NoJwkForKid
  | NotPossibleToGetDecodeKey
  | ErrorVerifying
  | NoSignaturePresent
deriving DecidableEq, Repr

/-- Rust `str::split('.')` (note: the empty string yields one empty segment). -/
def splitDot : List Char → List (List Char)
  | [] => [[]]
  | c :: rest =>
    if c = '.' then [] :: splitDot rest
    else
      match splitDot rest with
      | seg :: segs => (c :: seg) :: segs
      | [] => [[c]]

/-- `validator::get_kid_from_token`: the header kid when present and
non-empty. -/
def get_kid_from_token (the_header : JwtHeader) : Option (List Char) :=
  match the_header.kid with
  | some kid => if kid.isEmpty then none else some kid
  | none => none

/-- `validator::get_jwk`: first key of the set whose `key_id` equals the
token's kid. -/
def get_jwk (jwt_kid : List Char) (jwks : JwkSet) : Option Jwk :=
  jwks.keys.find? (fun jwk => jwk.key_id = some jwt_kid)

/-- `validator::get_public_key`: derive a decoding key from RSA components
(`mk` models `DecodingKey::from_rsa_components(..).ok()`); non-RSA
algorithms yield `none`. -/
def get_public_key {K : Type} (mk : List Char → List Char → Option K) (jwk : Jwk) :
    Option K :=
  match jwk.algorithm with
  | .RSA n e => mk n e
  | .other => none

/-- `validator::get_signature`: `token.split('.').nth(2)`. -/
def get_signature (token : List Char) : Option (List Char) :=
  (splitDot token).get? 2

/-- `validator::get_message`: `token.split('.').nth(1)`. -/
def get_message (token : List Char) : Option (List Char) :=
  (splitDot token).get? 1

/-- The header+payload segment of a token (`header "." payload`), the signing
input prescribed by the specification of the verification gateway.  Stated
from the spec for comparison with the code's `get_message`. -/
def headerPayloadSegment (token : List Char) : List Char :=
  ((splitDot token).getD 0 []) ++ '.' :: ((splitDot token).getD 1 [])

/-- `validator::verify_jwt`.  `dh` models `jsonwebtoken::decode_header`, `mk`
models `DecodingKey::from_rsa_components(..).ok()`, and `vrf` models
`jsonwebtoken::crypto::verify(sig, msg, key, RS256)` (`none` = the
primitive's error). -/
def verify_jwt {K : Type} (dh : List Char → Option JwtHeader)
    (mk : List Char → List Char → Option K)
    (vrf : List Char → List Char → K → Option Bool)
    (token : List Char) (jwks : JwkSet) : Except ErrorInJwt Bool :=
  match dh token with
  | none => .error .InvalidJwt
  | some token_header =>
    match get_kid_from_token token_header with
    | none => .error .InvalidJwt
    | some jwt_kid =>
      match get_jwk jwt_kid jwks with
      | none => .error .NoJwkForKid
      | some jwk =>
        match get_public_key mk jwk with
        | none => .error .NotPossibleToGetDecodeKey
        | some decode_key =>
          match get_signature token with
          | none => .error .NoSignaturePresent
          | some signature =>
            match get_message token with
            | none => .error .NoSignaturePresent
            | some message =>
              match vrf signature message decode_key with
              | some b => .ok b
              | none => .error .ErrorVerifying

/-- The `Claims` struct of `src/src/lib.rs`. -/
structure Claims where
  aud : List Char
  company : List Char
  sub : List Char
  exp : Nat
  iss : List Char
deriving DecidableEq, Repr

/-- `src/src/lib.rs::get_kid_from_token` (the `Result`-returning variant). -/
def get_kid_from_token_src (the_header : JwtHeader) : Except ErrorInJwt (List Char) :=
  match the_header.kid with
  | some kid => if kid.isEmpty then .error .InvalidToken else .ok kid
  | none => .error .InvalidToken

/-- `src/src/lib.rs::verify_jwt`.  The outcome is `Option (Except ErrorInJwt
Bool)`: `none` models a panic (an `unwrap()` of a failed external call).
`dh` models `decode_header`, `dec` models `decode::<Claims>` with RS256
validation, `mk` models `DecodingKey::from_rsa_components` (the `unwrap`ed
one), `vrf` models `crypto::verify`, and `now` the clock read by
`has_token_expired`.  `check_token` (serde re-serialization of the decoded
token) is modelled as always succeeding. -/
def verify_jwt_src {K : Type} (dh : List Char → Option JwtHeader)
    (dec : List Char → K → Option Claims)
    (mk : List Char → List Char → Option K)
    (vrf : List Char → List Char → K → Option Bool)
    (now : Nat) (token : List Char) (jwks : JwkSet) :
    Option (Except ErrorInJwt Bool) :=
  match dh token with
  | none => none
  | some token_header =>
    match get_kid_from_token_src token_header with
    | .error e => some (.error e)
    | .ok jwt_kid =>
      match get_jwk jwt_kid jwks with
      | none => some (.error .NoJwkForKid)
      | some jwk =>
        match jwk.algorithm with
        | .other => some (.error .NotPossibleToGetDecodeKey)
        | .RSA n e =>
          match mk n e with
          | none => none
          | some decode_key =>
            match dec token decode_key with
            | none => none
            | some claims =>
              if claims.exp ≤ now then some (.error .TokenExpired)
              else if claims.iss.isEmpty then some (.error .NoIssuer)
              else if claims.sub.isEmpty then some (.error .NoSub)
              else
                match get_signature token with
                | none => some (.error .NoSignaturePresent)
                | some signature =>
                  match get_message token with
                  | none => some (.error .NoSignaturePresent)
                  | some message =>
                    match vrf signature message decode_key with
                    | some b => some (.ok b)
                    | none => some (.error .ErrorVerifying)

/-! ## Concrete fixtures

Configuration mirroring `mock.rs` (`MaxLengthIssuerJWKS = 1000`,
`MinUpdateInterval = 10`, `MaxUpdateInterval = 1000`,
`MaxProposersPerIssuer = 10`), with accounts 1, 2, 3 as the validator set,
plus small concrete states used to exercise the theorems. -/

def testConfig : Config :=
  { maxLengthIssuerDomain := 100
    maxLengthIssuerOpenIdURL := 200
    maxLengthIssuerJWKS := 1000
    minUpdateInterval := 10
    maxUpdateInterval := 1000
    maxProposersPerIssuer := 10
    validators := [1, 2, 3] }

/-- `testConfig` with proposer capacity 2, to exercise the capacity bound. -/
def smallConfig : Config :=
  { testConfig with maxProposersPerIssuer := 2 }

def emptyState : State :=
  { issuerMap := []
    jwksMap := []
    accountsProposedForIssuer := []
    jwksHash := []
    counterProposedJwksHash := []
    counterIntervalUpdateIssuer := []
    events := [] }

def exampleDomain : List Nat := bytesOf "example.com"

def exampleDomain2 : List Nat := bytesOf "example2.com"

def urlBytes : List Nat := bytesOf "https://test.example.com"

def issuer0 : Issuer :=
  { open_id_url := none, interval_update := none, is_enabled := true }

/-- Two registered issuers, no proposals yet. -/
def regState : State :=
  { emptyState with issuerMap := [(exampleDomain, issuer0), (exampleDomain2, issuer0)] }

/-- The unterminated JSON document of end-to-end scenario 4. -/
def malformedJson : List Nat := bytesOf "\x7b\"key\": \"value\""

/-- `\x7b"a":1,"b":2\x7d` — already in canonical key order. -/
def jsonAB : List Nat := bytesOf "\x7b\"a\":1,\"b\":2\x7d"

/-- `\x7b"b":2,"a":1\x7d` — the same document with the keys swapped. -/
def jsonBA : List Nat := bytesOf "\x7b\"b\":2,\"a\":1\x7d"

/-- State after validator 1 proposes `malformedJson` for `exampleDomain`. -/
def c2Post : State :=
  dispatchState (propose_jwks testConfig regState 1 exampleDomain malformedJson) regState

/-- State after validator 1 proposes `jsonAB` for `exampleDomain`. -/
def c6Mid : State :=
  dispatchState (propose_jwks testConfig regState 1 exampleDomain jsonAB) regState

/-- State after validator 1 additionally proposes `jsonBA` for
`exampleDomain2`. -/
def c6Post : State :=
  dispatchState (propose_jwks testConfig c6Mid 1 exampleDomain2 jsonBA) c6Mid

/-- A registered issuer with an active JWKS, a recorded proposal and an
interval counter. -/
def c5State : State :=
  { issuerMap := [(exampleDomain, issuer0)]
    jwksMap := [(exampleDomain, jsonAB)]
    accountsProposedForIssuer := [(exampleDomain, [1])]
    jwksHash := [(jsonAB, jsonAB)]
    counterProposedJwksHash := [(exampleDomain, [(jsonAB, 1)])]
    counterIntervalUpdateIssuer := [(exampleDomain, 5)]
    events := [] }

def c5Post : State := dispatchState (delete_issuer c5State 0 exampleDomain) c5State

/-- A registered issuer whose flag is `true` and whose URL is `urlBytes` —
the inputs to the unchanged-value calls. -/
def c8State : State :=
  { emptyState with
    issuerMap :=
      [(exampleDomain, { open_id_url := some urlBytes, interval_update := some 100, is_enabled := true })] }

/-- A registered issuer with two content hashes tied at count 2. -/
def c3State : State :=
  { issuerMap := [(exampleDomain, issuer0)]
    jwksMap := []
    accountsProposedForIssuer := [(exampleDomain, [1, 2, 3])]
    jwksHash := [(jsonAB, jsonAB), (jsonBA, jsonBA)]
    counterProposedJwksHash := [(exampleDomain, [(jsonAB, 2), (jsonBA, 2)])]
    counterIntervalUpdateIssuer := []
    events := [] }

/-- A registered issuer with an active JWKS but zero recorded proposals. -/
def c4State : State :=
  { emptyState with
    issuerMap := [(exampleDomain, issuer0)]
    jwksMap := [(exampleDomain, jsonAB)] }

/-- The state committed by the successful registration exercised in the C1
witness. -/
def c1Post : State :=
  dispatchState
    (register_issuer testConfig emptyState 4 exampleDomain (some urlBytes) (some jsonBA) (some 5))
    emptyState

/-- The double-map read `CounterProposedJwksHash::get(domain, h)`
(`ValueQuery`: absent keys read 0). -/
def counterOf (s : State) (domain h : List Nat) : Nat :=
  (mfind ((mfind s.counterProposedJwksHash domain).getD []) h).getD 0

/-- Fixtures for the verification gateway: a three-segment token `h.p.s`. -/
def tokenHPS : List Char := ['h', '.', 'p', '.', 's']

def c9Jwks : JwkSet := ⟨[⟨some ['k'], .RSA ['n'] ['e']⟩]⟩

/-- `decode_header` instantiation: every token decodes to a header whose kid
is `k`. -/
def c9dh : List Char → Option JwtHeader := fun _ => some ⟨some ['k']⟩

/-- `from_rsa_components` instantiation: key derivation always succeeds. -/
def c9mk : List Char → List Char → Option Nat := fun _ _ => some 0

/-- `crypto::verify` instantiation: the signature matches exactly when the
verified message is the header+payload signing input of `tokenHPS`. -/
def c9vrf : List Char → List Char → Nat → Option Bool :=
  fun _ msg _ => some (decide (msg = headerPayloadSegment tokenHPS))

/-! ## Storage-map lemmas -/

theorem mfind_minsert_self {κ ν : Type} [DecidableEq κ] (m : List (κ × ν)) (k : κ) (v : ν) :
    mfind (minsert m k v) k = some v := by
  induction m with
  | nil => simp [minsert, mfind]
  | cons kv rest ih =>
    obtain ⟨k', v'⟩ := kv
    by_cases h : k' = k
    · subst h; simp [minsert, mfind]
    · simp [minsert, mfind, h, ih]

theorem mfind_mremove_self {κ ν : Type} [DecidableEq κ] (m : List (κ × ν)) (k : κ) :
    mfind (mremove m k) k = none := by
  induction m with
  | nil => simp [mremove, mfind]
  | cons kv rest ih =>
    obtain ⟨k', v'⟩ := kv
    by_cases h : k' = k
    · simp [mremove, h, ih]
    · simp [mremove, mfind, h, ih]

theorem mfind_bumpCounter_self (l : List (List Nat × Nat)) (h : List Nat) :
    mfind (bumpCounter l h) h = some (satAdd1 ((mfind l h).getD 0)) := by
  induction l with
  | nil => simp [bumpCounter, mfind]
  | cons kv rest ih =>
    obtain ⟨k, c⟩ := kv
    by_cases hk : k = h
    · subst hk; simp [bumpCounter, mfind]
    · simp [bumpCounter, mfind, hk, ih]

/-! ## Tally-scan lemmas -/

theorem bestStep_foldl_spec (pairs : List (List Nat × Nat)) :
    ∀ q : List Nat × Nat,
      ∃ r, pairs.foldl bestStep (some q) = some r ∧
        ((r = q ∧ ∀ p ∈ pairs, p.2 ≤ q.2) ∨
         ∃ l₁ l₂, pairs = l₁ ++ r :: l₂ ∧ q.2 < r.2 ∧
           (∀ p ∈ l₁, p.2 < r.2) ∧ (∀ p ∈ l₂, p.2 ≤ r.2)) := by
  induction pairs with
  | nil => exact fun q => ⟨q, rfl, .inl ⟨rfl, by simp⟩⟩
  | cons p rest ih =>
    intro q
    by_cases h : p.2 ≤ q.2
    · obtain ⟨r, hfold, hspec⟩ := ih q
      refine ⟨r, by simpa [bestStep, h] using hfold, ?_⟩
      rcases hspec with ⟨hrq, hall⟩ | ⟨l₁, l₂, hsplit, hlt, hl₁, hl₂⟩
      · subst hrq
        refine .inl ⟨rfl, ?_⟩
        intro x hx
        rcases List.mem_cons.mp hx with hx | hx
        · subst hx; exact h
        · exact hall x hx
      · refine .inr ⟨p :: l₁, l₂, by simp [hsplit], hlt, ?_, hl₂⟩
        intro x hx
        rcases List.mem_cons.mp hx with hx | hx
        · subst hx; omega
        · exact hl₁ x hx
    · obtain ⟨r, hfold, hspec⟩ := ih p
      refine ⟨r, by simpa [bestStep, h] using hfold, ?_⟩
      rcases hspec with ⟨hrq, hall⟩ | ⟨l₁, l₂, hsplit, hlt, hl₁, hl₂⟩
      · subst hrq
        exact .inr ⟨[], rest, rfl, by omega, by simp, hall⟩
      · refine .inr ⟨p :: l₁, l₂, by simp [hsplit], by omega, ?_, hl₂⟩
        intro x hx
        rcases List.mem_cons.mp hx with hx | hx
        · subst hx; omega
        · exact hl₁ x hx

/-- The scan keeps the first pair attaining the overall maximum counter:
the pairs strictly before the winner have strictly smaller counters, and no
pair beats the winner. -/
theorem bestCount_spec (pairs : List (List Nat × Nat)) (hne : pairs ≠ []) :
    ∃ r l₁ l₂, bestCount pairs = some r ∧ pairs = l₁ ++ r :: l₂ ∧
      (∀ p ∈ l₁, p.2 < r.2) ∧ (∀ p ∈ pairs, p.2 ≤ r.2) := by
  cases pairs with
  | nil => cases hne rfl
  | cons p rest =>
    obtain ⟨r, hfold, hspec⟩ := bestStep_foldl_spec rest p
    have hbc : bestCount (p :: rest) = some r := by
      simpa [bestCount, bestStep] using hfold
    rcases hspec with ⟨hrq, hall⟩ | ⟨l₁, l₂, hsplit, hlt, hl₁, hl₂⟩
    · refine ⟨r, [], rest, hbc, by rw [hrq]; rfl, by simp, ?_⟩
      intro x hx
      rcases List.mem_cons.mp hx with hx | hx
      · subst hx; rw [hrq]
      · rw [hrq]; exact hall x hx
    · refine ⟨r, p :: l₁, l₂, hbc, by simp [hsplit], ?_, ?_⟩
      · intro x hx
        rcases List.mem_cons.mp hx with hx | hx
        · subst hx; omega
        · exact hl₁ x hx
      · intro x hx
        rcases List.mem_cons.mp hx with hx | hx
        · subst hx; omega
        · rw [hsplit] at hx
          rcases List.mem_append.mp hx with hx | hx
          · exact Nat.le_of_lt (hl₁ x hx)
          · rcases List.mem_cons.mp hx with hx | hx
            · subst hx; exact Nat.le_refl _
            · exact hl₂ x hx

/-! ## `propose_jwks` effect lemmas -/

theorem proposePost_issuerMap (s : State) (who : Nat)
    (domain : List Nat) (jwks : List Nat) :
    (proposePost s who domain jwks).issuerMap = s.issuerMap := by
  by_cases h : (mfind s.jwksHash (blake2_256 jwks)).isSome <;>
    simp [proposePost, emitEvent, h]

theorem proposePost_jwksMap (s : State) (who : Nat)
    (domain : List Nat) (jwks : List Nat) :
    (proposePost s who domain jwks).jwksMap = s.jwksMap := by
  by_cases h : (mfind s.jwksHash (blake2_256 jwks)).isSome <;>
    simp [proposePost, emitEvent, h]

theorem proposePost_counterInterval (s : State) (who : Nat)
    (domain : List Nat) (jwks : List Nat) :
    (proposePost s who domain jwks).counterIntervalUpdateIssuer =
      s.counterIntervalUpdateIssuer := by
  by_cases h : (mfind s.jwksHash (blake2_256 jwks)).isSome <;>
    simp [proposePost, emitEvent, h]

theorem proposePost_accounts (s : State) (who : Nat)
    (domain : List Nat) (jwks : List Nat) :
    (proposePost s who domain jwks).accountsProposedForIssuer =
      minsert s.accountsProposedForIssuer domain
        ((mfind s.accountsProposedForIssuer domain).getD [] ++ [who]) := by
  by_cases h : (mfind s.jwksHash (blake2_256 jwks)).isSome <;>
    simp [proposePost, emitEvent, h]

theorem proposePost_jwksHash (s : State) (who : Nat)
    (domain : List Nat) (jwks : List Nat) :
    (proposePost s who domain jwks).jwksHash =
      (if (mfind s.jwksHash (blake2_256 jwks)).isSome then s.jwksHash
       else minsert s.jwksHash (blake2_256 jwks) jwks) := by
  by_cases h : (mfind s.jwksHash (blake2_256 jwks)).isSome <;>
    simp [proposePost, emitEvent, h]

theorem proposePost_counter (s : State) (who : Nat)
    (domain : List Nat) (jwks : List Nat) :
    (proposePost s who domain jwks).counterProposedJwksHash =
      minsert s.counterProposedJwksHash domain
        (bumpCounter ((mfind s.counterProposedJwksHash domain).getD [])
          (blake2_256 jwks)) := by
  by_cases h : (mfind s.jwksHash (blake2_256 jwks)).isSome <;>
    simp [proposePost, emitEvent, h]

theorem propose_jwks_ok (cfg : Config) (s : State) (who : Nat)
    (domain : List Nat) (jwks : List Nat)
    (hwho : who ∈ cfg.validators)
    (hreg : (mfind s.issuerMap domain).isSome)
    (hnotin : ¬ who ∈ (mfind s.accountsProposedForIssuer domain).getD [])
    (hcap : ((mfind s.accountsProposedForIssuer domain).getD []).length <
      cfg.maxProposersPerIssuer) :
    propose_jwks cfg s who domain jwks = .ok (proposePost s who domain jwks) := by
  have hne : (mfind s.issuerMap domain).isNone = false := by
    cases hmm : mfind s.issuerMap domain with
    | none => rw [hmm] at hreg; simp at hreg
    | some iss => rfl
  simp [propose_jwks, hwho, hne, hnotin, hcap]

theorem propose_jwks_already (cfg : Config) (s : State) (who : Nat)
    (domain : List Nat) (jwks : List Nat)
    (hwho : who ∈ cfg.validators)
    (hreg : (mfind s.issuerMap domain).isSome)
    (hin : who ∈ (mfind s.accountsProposedForIssuer domain).getD []) :
    propose_jwks cfg s who domain jwks = .error .AlreadyProposedForJWKS := by
  have hne : (mfind s.issuerMap domain).isNone = false := by
    cases hmm : mfind s.issuerMap domain with
    | none => rw [hmm] at hreg; simp at hreg
    | some iss => rfl
  simp [propose_jwks, hwho, hne, hin]

theorem propose_jwks_capacity (cfg : Config) (s : State) (who : Nat)
    (domain : List Nat) (jwks : List Nat)
    (hwho : who ∈ cfg.validators)
    (hreg : (mfind s.issuerMap domain).isSome)
    (hnotin : ¬ who ∈ (mfind s.accountsProposedForIssuer domain).getD [])
    (hcap : ¬ ((mfind s.accountsProposedForIssuer domain).getD []).length <
      cfg.maxProposersPerIssuer) :
    propose_jwks cfg s who domain jwks = .error .MaxProposersPerIssuerExceeded := by
  have hne : (mfind s.issuerMap domain).isNone = false := by
    cases hmm : mfind s.issuerMap domain with
    | none => rw [hmm] at hreg; simp at hreg
    | some iss => rfl
  simp [propose_jwks, hwho, hne, hnotin, hcap]

theorem mfind_minsert_other {κ ν : Type} [DecidableEq κ] (m : List (κ × ν))
    (k k' : κ) (v : ν) (h : k' ≠ k) : mfind (minsert m k v) k' = mfind m k' := by
  induction m with
  | nil => simp [minsert, mfind, h, Ne.symm h]
  | cons kv rest ih =>
    obtain ⟨k₀, v₀⟩ := kv
    by_cases hk : k₀ = k
    · subst hk; simp [minsert, mfind, h, Ne.symm h]
    · simp [minsert, mfind, hk, ih]

/-- Sequential proposals by fresh authorized voters all succeed, appending the
voters in order to the domain's proposer list. -/
theorem proposeSeq_ok (cfg : Config) :
    ∀ (voters : List Nat) (s : State) (domain jwks : List Nat) (l : List Nat),
      voters.Nodup → (∀ v ∈ voters, v ∈ cfg.validators) →
      (mfind s.issuerMap domain).isSome →
      (mfind s.accountsProposedForIssuer domain).getD [] = l →
      (∀ v ∈ voters, ¬ v ∈ l) →
      l.length + voters.length ≤ cfg.maxProposersPerIssuer →
      ∃ s', proposeSeq cfg s voters domain jwks = .ok s' ∧
        (mfind s'.issuerMap domain).isSome ∧
        (mfind s'.accountsProposedForIssuer domain).getD [] = l ++ voters := by
  intro voters
  induction voters with
  | nil =>
    intro s domain jwks l _ _ hreg hl _ _
    exact ⟨s, rfl, hreg, by simp [hl]⟩
  | cons v vs ih =>
    intro s domain jwks l hnodup hval hreg hl hnot hlen
    have hvval : v ∈ cfg.validators := hval v (by simp)
    have hvnot : ¬ v ∈ (mfind s.accountsProposedForIssuer domain).getD [] := by
      rw [hl]; exact hnot v (by simp)
    have hcap : ((mfind s.accountsProposedForIssuer domain).getD []).length <
        cfg.maxProposersPerIssuer := by
      rw [hl]; simp at hlen; omega
    have hstep := propose_jwks_ok cfg s v domain jwks hvval hreg hvnot hcap
    have hreg' : (mfind (proposePost s v domain jwks).issuerMap domain).isSome := by
      rw [proposePost_issuerMap]; exact hreg
    have hacc : (mfind (proposePost s v domain jwks).accountsProposedForIssuer domain).getD []
        = l ++ [v] := by
      rw [proposePost_accounts, mfind_minsert_self]; simp [hl]
    obtain ⟨s', hseq, hreg'', hout⟩ := ih (proposePost s v domain jwks) domain jwks (l ++ [v])
      (List.nodup_cons.mp hnodup).2
      (fun w hw => hval w (List.mem_cons_of_mem _ hw))
      hreg' hacc
      (by
        intro w hw
        simp only [List.mem_append, List.mem_singleton]
        rintro (hwl | hwv)
        · exact hnot w (List.mem_cons_of_mem _ hw) hwl
        · exact (List.nodup_cons.mp hnodup).1 (hwv ▸ hw))
      (by simp at hlen ⊢; omega)
    refine ⟨s', ?_, hreg'', by simpa [List.append_assoc] using hout⟩
    simp [proposeSeq, hstep, hseq]

/-! ## Claim theorems -/

/-- **C1.** `register_issuer` is atomic mutate-or-fail: (1) on a domain that
is already present it fails with `IssuerAlreadyExists` and the dispatched
transition leaves the whole state — in particular the first registration's
`Issuer` entry and active JWKS — untouched; (2) when validation of a
supplied JWKS fails, the call fails with that error and the dispatched state
still has no `Issuer` entry for the domain; (3) on success the `Issuer`
entry (with `is_enabled = true` and the clamped interval) and, when a JWKS
was supplied, its canonicalized active-JWKS entry are both committed. -/
theorem register_issuer_mutate_or_fail (cfg : Config) (s : State) (who : Nat)
    (domain : List Nat) (url : Option (List Nat)) (jwks : Option (List Nat))
    (iu : Option Nat) :
    (∀ iss, mfind s.issuerMap domain = some iss →
      register_issuer cfg s who domain url jwks iu = .error .IssuerAlreadyExists ∧
      dispatchState (register_issuer cfg s who domain url jwks iu) s = s) ∧
    (∀ j e, mfind s.issuerMap domain = none → jwks = some j →
      validate_json cfg.maxLengthIssuerJWKS j = .error e →
      register_issuer cfg s who domain url jwks iu = .error e ∧
      mfind (dispatchState (register_issuer cfg s who domain url jwks iu) s).issuerMap
        domain = none) ∧
    (∀ s', register_issuer cfg s who domain url jwks iu = .ok s' →
      mfind s'.issuerMap domain = some
        { open_id_url := url, interval_update := validate_interval_update cfg iu,
          is_enabled := true } ∧
      (∀ j, jwks = some j → ∃ c, validate_json cfg.maxLengthIssuerJWKS j = .ok c ∧
        mfind s'.jwksMap domain = some c)) := by
  refine ⟨?_, ?_, ?_⟩
  · intro iss hiss
    exact ⟨by simp [register_issuer, hiss], by simp [register_issuer, hiss, dispatchState]⟩
  · intro j e hnone hj hval
    subst hj
    refine ⟨by simp [register_issuer, hnone, hval], ?_⟩
    simp [register_issuer, hnone, hval, dispatchState]
  · intro s' hok
    cases hns : mfind s.issuerMap domain with
    | some iss => simp [register_issuer, hns] at hok
    | none =>
      cases jwks with
      | none =>
        simp [register_issuer, hns] at hok
        subst hok
        exact ⟨by simp [emitEvent, mfind_minsert_self], by simp⟩
      | some j =>
        cases hval : validate_json cfg.maxLengthIssuerJWKS j with
        | error e => simp [register_issuer, hns, hval] at hok
        | ok c =>
          simp [register_issuer, hns, hval] at hok
          subst hok
          refine ⟨by simp [emitEvent, mfind_minsert_self], ?_⟩
          intro j' hj'
          cases hj'
          exact ⟨c, hval, by simp [emitEvent, mfind_minsert_self]⟩

/-- Witness for C1: the second registration of `exampleDomain` fails with
`IssuerAlreadyExists`; a registration supplying unterminated JSON fails with
`InvalidJson` and the dispatched state has no issuer entry; a successful
registration commits the issuer (enabled, interval clamped up to 10) and the
canonicalized JWKS. -/
theorem register_issuer_mutate_or_fail_witness :
    (register_issuer testConfig c5State 0 exampleDomain none none none =
      .error .IssuerAlreadyExists) ∧
    (register_issuer testConfig emptyState 0 exampleDomain none (some malformedJson) none =
      .error .InvalidJson) ∧
    (mfind (dispatchState
      (register_issuer testConfig emptyState 0 exampleDomain none (some malformedJson) none)
      emptyState).issuerMap exampleDomain = none) ∧
    (mfind c1Post.issuerMap exampleDomain = some
        { open_id_url := some urlBytes, interval_update := some 10, is_enabled := true }) := by
  have h1 := (register_issuer_mutate_or_fail testConfig c5State 0 exampleDomain
    none none none).1 issuer0 (by decide)
  have h2 := (register_issuer_mutate_or_fail testConfig emptyState 0 exampleDomain
    none (some malformedJson) none).2.1 malformedJson .InvalidJson (by decide) rfl (by decide)
  have h3 := (register_issuer_mutate_or_fail testConfig emptyState 4 exampleDomain
    (some urlBytes) (some jsonBA) (some 5)).2.2 c1Post (by decide)
  exact ⟨h1.1, h2.1, h2.2, h3.1⟩

/-- **C2 (counterexample).** `propose_jwks` never parses its JWKS argument:
the unterminated document of scenario 4 — rejected as `InvalidJson` by the
pallet's own `validate_json` — is accepted from an authorized voter for a
registered domain, and the blob is stored, the (domain, hash) counter is
incremented and the voter is appended to the proposer list, refuting the
claimed `InvalidJson` failure and untouched state. -/
theorem propose_jwks_invalid_json_cex :
    validate_json testConfig.maxLengthIssuerJWKS malformedJson = .error .InvalidJson ∧
    propose_jwks testConfig regState 1 exampleDomain malformedJson = .ok c2Post ∧
    mfind c2Post.jwksHash (blake2_256 malformedJson) = some malformedJson ∧
    counterOf c2Post exampleDomain (blake2_256 malformedJson) = 1 ∧
    counterOf regState exampleDomain (blake2_256 malformedJson) = 0 ∧
    mfind c2Post.accountsProposedForIssuer exampleDomain = some [1] ∧
    mfind regState.accountsProposedForIssuer exampleDomain = none := by
  refine ⟨by decide, by decide, by decide, by decide, by decide, by decide, by decide⟩

/-- **C2 (amended).** `propose_jwks` performs no JSON validation: for an
authorized voter and a registered domain (voter fresh, capacity not
reached), a proposal whose bytes are not parseable JSON (`validate_json`
rejects them with `InvalidJson`) nevertheless succeeds — the raw blob is
stored under its content hash, the (domain, content-hash) counter is
incremented, and the voter is appended to the domain's proposer list. -/
theorem propose_jwks_accepts_unparseable_json (cfg : Config) (s : State) (who : Nat)
    (domain : List Nat) (jwks : List Nat)
    (hjson : validate_json cfg.maxLengthIssuerJWKS jwks = .error .InvalidJson)
    (hwho : who ∈ cfg.validators)
    (hreg : (mfind s.issuerMap domain).isSome)
    (hnotin : ¬ who ∈ (mfind s.accountsProposedForIssuer domain).getD [])
    (hcap : ((mfind s.accountsProposedForIssuer domain).getD []).length <
      cfg.maxProposersPerIssuer) :
    ∃ s', propose_jwks cfg s who domain jwks = .ok s' ∧
      (mfind s'.jwksHash (blake2_256 jwks)).isSome ∧
      (mfind s.jwksHash (blake2_256 jwks) = none →
        mfind s'.jwksHash (blake2_256 jwks) = some jwks) ∧
      counterOf s' domain (blake2_256 jwks) = satAdd1 (counterOf s domain (blake2_256 jwks)) ∧
      mfind s'.accountsProposedForIssuer domain =
        some ((mfind s.accountsProposedForIssuer domain).getD [] ++ [who]) := by
  refine ⟨_, propose_jwks_ok cfg s who domain jwks hwho hreg hnotin hcap, ?_, ?_, ?_, ?_⟩
  · rw [proposePost_jwksHash]
    by_cases h : (mfind s.jwksHash (blake2_256 jwks)).isSome
    · simp [h]
    · simp [h, mfind_minsert_self]
  · intro habs
    rw [proposePost_jwksHash]
    simp [habs, mfind_minsert_self]
  · unfold counterOf
    rw [proposePost_counter, mfind_minsert_self]
    simp [mfind_bumpCounter_self]
  · rw [proposePost_accounts, mfind_minsert_self]

/-- Witness for the amended C2, at the concrete inputs of the
counterexample. -/
theorem propose_jwks_accepts_unparseable_json_witness :
    ∃ s', propose_jwks testConfig regState 1 exampleDomain malformedJson = .ok s' ∧
      (mfind s'.jwksHash (blake2_256 malformedJson)).isSome ∧
      (mfind regState.jwksHash (blake2_256 malformedJson) = none →
        mfind s'.jwksHash (blake2_256 malformedJson) = some malformedJson) ∧
      counterOf s' exampleDomain (blake2_256 malformedJson) =
        satAdd1 (counterOf regState exampleDomain (blake2_256 malformedJson)) ∧
      mfind s'.accountsProposedForIssuer exampleDomain =
        some ((mfind regState.accountsProposedForIssuer exampleDomain).getD [] ++ [1]) :=
  propose_jwks_accepts_unparseable_json testConfig regState 1 exampleDomain malformedJson
    (by decide) (by decide) (by decide) (by decide) (by decide)

/-- **C3.** For a registered domain with at least one recorded proposal
(assuming the propose-time invariant that every counted hash has a stored
blob), the tally `set_jwks` succeeds and installs as the active JWKS the
stored bytes of a winning counter pair `r` such that: the scan list splits
as `l₁ ++ r :: l₂` with every pair before `r` strictly below it and no pair
anywhere above it — so `r` carries the strictly greatest counter when one
exists, ties go to the first hash in storage-iteration order, and the
installed value is always one of the candidates, never a third value. -/
theorem set_jwks_installs_first_max (cfg : Config) (s : State) (who : Nat)
    (domain : List Nat)
    (hwho : who ∈ cfg.validators)
    (hreg : (mfind s.issuerMap domain).isSome)
    (hne : (mfind s.counterProposedJwksHash domain).getD [] ≠ [])
    (hblob : ∀ p ∈ (mfind s.counterProposedJwksHash domain).getD [],
      (mfind s.jwksHash p.1).isSome) :
    ∃ s' r l₁ l₂ b,
      set_jwks cfg s who domain = .ok s' ∧
      (mfind s.counterProposedJwksHash domain).getD [] = l₁ ++ r :: l₂ ∧
      (∀ p ∈ l₁, p.2 < r.2) ∧
      (∀ p ∈ (mfind s.counterProposedJwksHash domain).getD [], p.2 ≤ r.2) ∧
      mfind s.jwksHash r.1 = some b ∧
      mfind s'.jwksMap domain = some b := by
  obtain ⟨r, l₁, l₂, hbc, hsplit, hl₁, hall⟩ := bestCount_spec _ hne
  have hrmem : r ∈ (mfind s.counterProposedJwksHash domain).getD [] := by
    rw [hsplit]; simp
  obtain ⟨b, hb⟩ := Option.isSome_iff_exists.mp (hblob r hrmem)
  obtain ⟨rh, rc⟩ := r
  have hwin : get_jwks_with_higher_count s domain = b := by
    simp [get_jwks_with_higher_count, hbc, hb]
  have hnereg : (mfind s.issuerMap domain).isNone = false := by
    cases hmm : mfind s.issuerMap domain with
    | none => rw [hmm] at hreg; simp at hreg
    | some iss => rfl
  by_cases hsame : mfind s.jwksMap domain = some (get_jwks_with_higher_count s domain)
  · refine ⟨s, (rh, rc), l₁, l₂, b, ?_, hsplit, hl₁, hall, hb, by rw [← hwin]; exact hsame⟩
    simp [set_jwks, hwho, hnereg, hsame]
  · refine ⟨emitEvent
        { s with jwksMap := minsert s.jwksMap domain (get_jwks_with_higher_count s domain) }
        (.IssuerJWKSUpdated who domain),
      (rh, rc), l₁, l₂, b, ?_, hsplit, hl₁, hall, hb, ?_⟩
    · simp [set_jwks, hwho, hnereg, hsame]
    · simp [emitEvent, mfind_minsert_self, hwin]

/-- Witness for C3 at a state with two hashes tied at count 2: the tally
succeeds and installs the blob of the first tied hash in scan order. -/
theorem set_jwks_installs_first_max_witness :
    ∃ s' r l₁ l₂ b,
      set_jwks testConfig c3State 1 exampleDomain = .ok s' ∧
      (mfind c3State.counterProposedJwksHash exampleDomain).getD [] = l₁ ++ r :: l₂ ∧
      (∀ p ∈ l₁, p.2 < r.2) ∧
      (∀ p ∈ (mfind c3State.counterProposedJwksHash exampleDomain).getD [], p.2 ≤ r.2) ∧
      mfind c3State.jwksHash r.1 = some b ∧
      mfind s'.jwksMap exampleDomain = some b :=
  set_jwks_installs_first_max testConfig c3State 1 exampleDomain
    (by decide) (by decide) (by decide) (by decide)

/-- **C4.** For a registered domain with zero recorded proposals, the tally
`set_jwks` succeeds and installs the empty JWKS value as the domain's
active JWKS, whatever was there before. -/
theorem set_jwks_no_proposals_installs_empty (cfg : Config) (s : State) (who : Nat)
    (domain : List Nat)
    (hwho : who ∈ cfg.validators)
    (hreg : (mfind s.issuerMap domain).isSome)
    (hempty : (mfind s.counterProposedJwksHash domain).getD [] = []) :
    ∃ s', set_jwks cfg s who domain = .ok s' ∧ mfind s'.jwksMap domain = some [] := by
  have hwin : get_jwks_with_higher_count s domain = [] := by
    simp [get_jwks_with_higher_count, hempty, bestCount]
  have hnereg : (mfind s.issuerMap domain).isNone = false := by
    cases hmm : mfind s.issuerMap domain with
    | none => rw [hmm] at hreg; simp at hreg
    | some iss => rfl
  by_cases hsame : mfind s.jwksMap domain = some (get_jwks_with_higher_count s domain)
  · refine ⟨s, ?_, by rw [← hwin]; exact hsame⟩
    simp [set_jwks, hwho, hnereg, hsame]
  · refine ⟨emitEvent
        { s with jwksMap := minsert s.jwksMap domain (get_jwks_with_higher_count s domain) }
        (.IssuerJWKSUpdated who domain), ?_, ?_⟩
    · simp [set_jwks, hwho, hnereg, hsame]
    · simp [emitEvent, mfind_minsert_self, hwin]

/-- Witness for C4 at a state whose issuer has an active JWKS but no
proposals: the previous active JWKS is overwritten by the empty value. -/
theorem set_jwks_no_proposals_installs_empty_witness :
    mfind c4State.jwksMap exampleDomain = some jsonAB ∧
    ∃ s', set_jwks testConfig c4State 1 exampleDomain = .ok s' ∧
      mfind s'.jwksMap exampleDomain = some [] :=
  ⟨by decide,
    set_jwks_no_proposals_installs_empty testConfig c4State 1 exampleDomain
      (by decide) (by decide) (by decide)⟩

/-- **C5 (counterexample).** Deleting `exampleDomain` from a state with a
recorded proposal removes the issuer, the active JWKS and the interval
counter, but the domain's proposer list and its (domain, content-hash) vote
counter are still present afterwards — refuting the claimed teardown of the
proposal ledger. -/
theorem delete_issuer_keeps_proposal_ledger_cex :
    delete_issuer c5State 0 exampleDomain = .ok c5Post ∧
    mfind c5Post.issuerMap exampleDomain = none ∧
    mfind c5Post.jwksMap exampleDomain = none ∧
    mfind c5Post.counterIntervalUpdateIssuer exampleDomain = none ∧
    mfind c5Post.accountsProposedForIssuer exampleDomain = some [1] ∧
    mfind c5Post.counterProposedJwksHash exampleDomain = some [(blake2_256 jsonAB, 1)] := by
  refine ⟨by decide, by decide, by decide, by decide, by decide, by decide⟩

/-- **C5 (amended).** For every registered domain, `delete_issuer` removes
the `Issuer` entry, the active JWKS and the interval counter — subsequent
lookups of all three report non-existence — while the domain's proposer
list and its per-(domain, content-hash) vote counters are left untouched. -/
theorem delete_issuer_removes_issuer_tables (s : State) (who : Nat)
    (domain : List Nat) (iss : Issuer)
    (hreg : mfind s.issuerMap domain = some iss) :
    ∃ s', delete_issuer s who domain = .ok s' ∧
      mfind s'.issuerMap domain = none ∧
      mfind s'.jwksMap domain = none ∧
      mfind s'.counterIntervalUpdateIssuer domain = none ∧
      s'.accountsProposedForIssuer = s.accountsProposedForIssuer ∧
      s'.counterProposedJwksHash = s.counterProposedJwksHash := by
  refine ⟨emitEvent
      { s with
        issuerMap := mremove s.issuerMap domain
        jwksMap := mremove s.jwksMap domain
        counterIntervalUpdateIssuer := mremove s.counterIntervalUpdateIssuer domain }
      (.IssuerDeleted who domain), ?_, ?_, ?_, ?_, rfl, rfl⟩
  · simp [delete_issuer, hreg]
  · simp [emitEvent, mfind_mremove_self]
  · simp [emitEvent, mfind_mremove_self]
  · simp [emitEvent, mfind_mremove_self]

/-- Witness for the amended C5 at the concrete state of the
counterexample. -/
theorem delete_issuer_removes_issuer_tables_witness :
    ∃ s', delete_issuer c5State 0 exampleDomain = .ok s' ∧
      mfind s'.issuerMap exampleDomain = none ∧
      mfind s'.jwksMap exampleDomain = none ∧
      mfind s'.counterIntervalUpdateIssuer exampleDomain = none ∧
      s'.accountsProposedForIssuer = c5State.accountsProposedForIssuer ∧
      s'.counterProposedJwksHash = c5State.counterProposedJwksHash :=
  delete_issuer_removes_issuer_tables c5State 0 exampleDomain issuer0 (by decide)

/-- **C6 (counterexample).** The content hash is computed over the raw
submitted bytes, not over the canonical key-sorted form: `jsonAB` and
`jsonBA` are semantically identical JSON documents differing only in key
order (`validate_json` canonicalizes both to the same bytes), yet proposing
them for two domains stores two distinct blobs under two distinct content
hashes and bumps counters under different hashes — refuting the claimed
single blob and shared hash. -/
theorem propose_jwks_no_canonical_dedup_cex :
    validate_json testConfig.maxLengthIssuerJWKS jsonAB = .ok jsonAB ∧
    validate_json testConfig.maxLengthIssuerJWKS jsonBA = .ok jsonAB ∧
    jsonAB ≠ jsonBA ∧
    propose_jwks testConfig regState 1 exampleDomain jsonAB = .ok c6Mid ∧
    propose_jwks testConfig c6Mid 1 exampleDomain2 jsonBA = .ok c6Post ∧
    blake2_256 jsonAB ≠ blake2_256 jsonBA ∧
    c6Post.jwksHash = [(blake2_256 jsonAB, jsonAB), (blake2_256 jsonBA, jsonBA)] ∧
    counterOf c6Post exampleDomain (blake2_256 jsonAB) = 1 ∧
    counterOf c6Post exampleDomain2 (blake2_256 jsonBA) = 1 ∧
    counterOf c6Post exampleDomain2 (blake2_256 jsonAB) = 0 := by
  refine ⟨by decide, by decide, by decide, by decide, by decide, by decide, by decide,
    by decide, by decide, by decide⟩

/-- **C6 (amended).** The content hash used by `propose_jwks` is computed
over the raw submitted bytes: a successful proposal for any domain stores
the blob write-once under `blake2_256 jwks` — if the hash is already
present the content store is left exactly as it was (idempotent), otherwise
the raw bytes are inserted — bumps the proposing domain's counter under
that hash, and leaves every other domain's counters unchanged; hence
byte-identical proposals for two domains share one blob and count under
the same hash, while semantically identical documents with different key
order do not. -/
theorem propose_jwks_raw_byte_dedup (cfg : Config) (s : State) (who : Nat)
    (domain : List Nat) (jwks : List Nat)
    (hwho : who ∈ cfg.validators)
    (hreg : (mfind s.issuerMap domain).isSome)
    (hnotin : ¬ who ∈ (mfind s.accountsProposedForIssuer domain).getD [])
    (hcap : ((mfind s.accountsProposedForIssuer domain).getD []).length <
      cfg.maxProposersPerIssuer) :
    ∃ s', propose_jwks cfg s who domain jwks = .ok s' ∧
      ((mfind s.jwksHash (blake2_256 jwks)).isSome → s'.jwksHash = s.jwksHash) ∧
      (mfind s.jwksHash (blake2_256 jwks) = none →
        s'.jwksHash = minsert s.jwksHash (blake2_256 jwks) jwks) ∧
      counterOf s' domain (blake2_256 jwks) = satAdd1 (counterOf s domain (blake2_256 jwks)) ∧
      (∀ d, d ≠ domain →
        mfind s'.counterProposedJwksHash d = mfind s.counterProposedJwksHash d) := by
  refine ⟨_, propose_jwks_ok cfg s who domain jwks hwho hreg hnotin hcap, ?_, ?_, ?_, ?_⟩
  · intro h; rw [proposePost_jwksHash]; simp [h]
  · intro h; rw [proposePost_jwksHash]; simp [h]
  · unfold counterOf
    rw [proposePost_counter, mfind_minsert_self]
    simp [mfind_bumpCounter_self]
  · intro d hd
    rw [proposePost_counter]
    exact mfind_minsert_other _ _ _ _ hd

/-- Witness for the amended C6: validator 2 re-proposes the byte-identical
`jsonAB` for `exampleDomain2` on top of `c6Post`; the content store is left
exactly as it was and `exampleDomain2`'s counter under the shared hash goes
from 0 to 1. -/
theorem propose_jwks_raw_byte_dedup_witness :
    ∃ s', propose_jwks testConfig c6Post 2 exampleDomain2 jsonAB = .ok s' ∧
      ((mfind c6Post.jwksHash (blake2_256 jsonAB)).isSome → s'.jwksHash = c6Post.jwksHash) ∧
      (mfind c6Post.jwksHash (blake2_256 jsonAB) = none →
        s'.jwksHash = minsert c6Post.jwksHash (blake2_256 jsonAB) jsonAB) ∧
      counterOf s' exampleDomain2 (blake2_256 jsonAB) =
        satAdd1 (counterOf c6Post exampleDomain2 (blake2_256 jsonAB)) ∧
      (∀ d, d ≠ exampleDomain2 →
        mfind s'.counterProposedJwksHash d = mfind c6Post.counterProposedJwksHash d) :=
  propose_jwks_raw_byte_dedup testConfig c6Post 2 exampleDomain2 jsonAB
    (by decide) (by decide) (by decide) (by decide)

/-- **C7.** For a registered domain: (1) an authorized voter already on the
domain's proposer list fails with `AlreadyProposedForJWKS` on any further
proposal, whatever the content; (2) starting from an empty proposer list,
`P = MaxProposersPerIssuer` distinct authorized voters all succeed in
sequence, filling the list, and a (P+1)-th distinct authorized voter then
fails with `MaxProposersPerIssuerExceeded`. -/
theorem propose_jwks_uniqueness_and_capacity (cfg : Config) :
    (∀ s who domain jwks, who ∈ cfg.validators →
      (mfind s.issuerMap domain).isSome →
      who ∈ (mfind s.accountsProposedForIssuer domain).getD [] →
      propose_jwks cfg s who domain jwks = .error .AlreadyProposedForJWKS) ∧
    (∀ s (voters : List Nat) domain jwks w,
      voters.Nodup → (∀ v ∈ voters, v ∈ cfg.validators) →
      voters.length = cfg.maxProposersPerIssuer →
      (mfind s.issuerMap domain).isSome →
      (mfind s.accountsProposedForIssuer domain).getD [] = [] →
      w ∈ cfg.validators → ¬ w ∈ voters →
      ∃ s', proposeSeq cfg s voters domain jwks = .ok s' ∧
        (mfind s'.accountsProposedForIssuer domain).getD [] = voters ∧
        propose_jwks cfg s' w domain jwks = .error .MaxProposersPerIssuerExceeded) := by
  constructor
  · intro s who domain jwks hwho hreg hin
    exact propose_jwks_already cfg s who domain jwks hwho hreg hin
  · intro s voters domain jwks w hnodup hval hlen hreg hinit hwval hwnot
    obtain ⟨s', hseq, hreg', hout⟩ := proposeSeq_ok cfg voters s domain jwks []
      hnodup hval hreg hinit (by simp) (by simp [hlen])
    have hout' : (mfind s'.accountsProposedForIssuer domain).getD [] = voters := by
      simpa using hout
    refine ⟨s', hseq, hout', ?_⟩
    exact propose_jwks_capacity cfg s' w domain jwks hwval hreg'
      (by rw [hout']; exact hwnot)
      (by rw [hout', hlen]; omega)

/-- Witness for C7 with the capacity-2 configuration: voter 1 has proposed,
proposing again fails with `AlreadyProposedForJWKS`; voters 1 and 2 fill
the list from empty and voter 3 then fails with
`MaxProposersPerIssuerExceeded`. -/
theorem propose_jwks_uniqueness_and_capacity_witness :
    propose_jwks smallConfig c5State 1 exampleDomain jsonAB =
      .error .AlreadyProposedForJWKS ∧
    ∃ s', proposeSeq smallConfig regState [1, 2] exampleDomain jsonAB = .ok s' ∧
      (mfind s'.accountsProposedForIssuer exampleDomain).getD [] = [1, 2] ∧
      propose_jwks smallConfig s' 3 exampleDomain jsonAB =
        .error .MaxProposersPerIssuerExceeded :=
  ⟨(propose_jwks_uniqueness_and_capacity smallConfig).1 c5State 1 exampleDomain jsonAB
      (by decide) (by decide) (by decide),
    (propose_jwks_uniqueness_and_capacity smallConfig).2 regState [1, 2] exampleDomain jsonAB 3
      (by decide) (by decide) (by decide) (by decide) (by decide) (by decide) (by decide)⟩

/-- **C8.** With the stored flag already `true` and the stored URL already
`urlBytes`, `set_enabled(domain, true)` and `set_open_id_url(domain,
urlBytes)` succeed and leave every storage item unchanged — but both still
deposit their event (the early return inside the mutate closure does not
reach the unconditional `deposit_event` after it), contradicting the
claimed "no event" no-op (and the code's own comment). -/
theorem set_unchanged_skips_write_but_emits_event :
    set_enabled c8State 0 exampleDomain true =
      .ok { c8State with
        events := c8State.events ++ [Event.IssuerEnabledUpdated 0 exampleDomain true] } ∧
    set_open_id_url c8State 0 exampleDomain urlBytes =
      .ok { c8State with
        events := c8State.events ++ [Event.IssuerOpenIdURLUpdated 0 exampleDomain] } := by
  refine ⟨by decide, by decide⟩

/-- **C9 (counterexample).** `verify_jwt` hands `crypto::verify` only the
payload segment (`split('.').nth(1)`), not the header+payload signing
input: with a verify primitive that accepts exactly the header+payload
segment of the token `h.p.s`, `verify_jwt` still reports `false`, because
it verifies over `p` instead of `h.p`. -/
theorem verify_jwt_message_not_header_payload_cex :
    c9vrf ['s'] (headerPayloadSegment tokenHPS) 0 = some true ∧
    get_message tokenHPS = some ['p'] ∧
    headerPayloadSegment tokenHPS = ['h', '.', 'p'] ∧
    verify_jwt c9dh c9mk c9vrf tokenHPS c9Jwks = .ok false := by
  refine ⟨by decide, by decide, by decide, by decide⟩

/-- **C9 (amended).** For every token whose decoded header carries a kid:
if no key of the supplied JWKS matches the kid, `verify_jwt` fails with
`NoJwkForKid`; if a key matches and a decoding key is derived, `verify_jwt`
submits to the verify primitive the token's signature and its *payload*
segment only (`get_message`, i.e. `split('.').nth(1)`) — returning the
primitive's verdict, and `ErrorVerifying` when the primitive itself
errors. -/
theorem verify_jwt_gateway (K : Type) (dh : List Char → Option JwtHeader)
    (mk : List Char → List Char → Option K)
    (vrf : List Char → List Char → K → Option Bool)
    (token : List Char) (jwks : JwkSet) :
    (∀ h kid, dh token = some h → get_kid_from_token h = some kid →
      get_jwk kid jwks = none →
      verify_jwt dh mk vrf token jwks = .error .NoJwkForKid) ∧
    (∀ h kid jwk key sig msg, dh token = some h → get_kid_from_token h = some kid →
      get_jwk kid jwks = some jwk → get_public_key mk jwk = some key →
      get_signature token = some sig → get_message token = some msg →
      (vrf sig msg key = none →
        verify_jwt dh mk vrf token jwks = .error .ErrorVerifying) ∧
      (∀ b, vrf sig msg key = some b → verify_jwt dh mk vrf token jwks = .ok b)) := by
  constructor
  · intro h kid hdh hkid hjwk
    simp [verify_jwt, hdh, hkid, hjwk]
  · intro h kid jwk key sig msg hdh hkid hjwk hkey hsig hmsg
    constructor
    · intro hv; simp [verify_jwt, hdh, hkid, hjwk, hkey, hsig, hmsg, hv]
    · intro b hv; simp [verify_jwt, hdh, hkid, hjwk, hkey, hsig, hmsg, hv]

/-- Witness for the amended C9: with an empty JWKS the kid `k` is unmatched
and `verify_jwt` fails with `NoJwkForKid`; with the matching key the
primitive is consulted on the payload segment `p` and its verdict `false`
is returned. -/
theorem verify_jwt_gateway_witness :
    verify_jwt c9dh c9mk c9vrf tokenHPS ⟨[]⟩ = .error .NoJwkForKid ∧
    verify_jwt c9dh c9mk c9vrf tokenHPS c9Jwks = .ok false :=
  ⟨(verify_jwt_gateway Nat c9dh c9mk c9vrf tokenHPS ⟨[]⟩).1
      ⟨some ['k']⟩ ['k'] (by decide) (by decide) (by decide),
    ((verify_jwt_gateway Nat c9dh c9mk c9vrf tokenHPS c9Jwks).2
      ⟨some ['k']⟩ ['k'] ⟨some ['k'], .RSA ['n'] ['e']⟩ 0 ['s'] ['p']
      (by decide) (by decide) (by decide) (by decide) (by decide) (by decide)).2
      false (by decide)⟩

/-- **C10.** `verify_jwt` of `src/src/lib.rs` is not total over
`ErrorInJwt`: whenever `decode_header` fails, or the matched RSA JWK's
components do not yield a decoding key, or the RS256 `decode` validation
fails, the function panics (the `unwrap()`s, modelled as the `none`
outcome) instead of returning an `ErrorInJwt`. -/
theorem verify_jwt_src_panics (K : Type) (dh : List Char → Option JwtHeader)
    (dec : List Char → K → Option Claims)
    (mk : List Char → List Char → Option K)
    (vrf : List Char → List Char → K → Option Bool)
    (now : Nat) (token : List Char) (jwks : JwkSet) :
    (dh token = none → verify_jwt_src dh dec mk vrf now token jwks = none) ∧
    (∀ h kid jwk n e, dh token = some h → get_kid_from_token_src h = .ok kid →
      get_jwk kid jwks = some jwk → jwk.algorithm = .RSA n e → mk n e = none →
      verify_jwt_src dh dec mk vrf now token jwks = none) ∧
    (∀ h kid jwk n e key, dh token = some h → get_kid_from_token_src h = .ok kid →
      get_jwk kid jwks = some jwk → jwk.algorithm = .RSA n e → mk n e = some key →
      dec token key = none →
      verify_jwt_src dh dec mk vrf now token jwks = none) := by
  refine ⟨?_, ?_, ?_⟩
  · intro hdh; simp [verify_jwt_src, hdh]
  · intro h kid jwk n e hdh hkid hjwk halg hmk
    simp [verify_jwt_src, hdh, hkid, hjwk, halg, hmk]
  · intro h kid jwk n e key hdh hkid hjwk halg hmk hdec
    simp [verify_jwt_src, hdh, hkid, hjwk, halg, hmk, hdec]

/-- Witness for C10: a header-decode failure (modelled after
`decode_header` failing, e.g. on an empty token) makes `verify_jwt_src`
panic, as does a failing `from_rsa_components` on the matched RSA key and a
failing RS256 `decode`. -/
theorem verify_jwt_src_panics_witness :
    verify_jwt_src (K := Nat) (fun _ => none) (fun _ _ => none) (fun _ _ => none)
      (fun _ _ _ => none) 0 tokenHPS c9Jwks = none ∧
    verify_jwt_src (K := Nat) c9dh (fun _ _ => none) (fun _ _ => none)
      (fun _ _ _ => none) 0 tokenHPS c9Jwks = none ∧
    verify_jwt_src (K := Nat) c9dh (fun _ _ => none) c9mk
      (fun _ _ _ => none) 0 tokenHPS c9Jwks = none :=
  ⟨(verify_jwt_src_panics Nat (fun _ => none) (fun _ _ => none) (fun _ _ => none)
      (fun _ _ _ => none) 0 tokenHPS c9Jwks).1 (by decide),
    (verify_jwt_src_panics Nat c9dh (fun _ _ => none) (fun _ _ => none)
      (fun _ _ _ => none) 0 tokenHPS c9Jwks).2.1
      ⟨some ['k']⟩ ['k'] ⟨some ['k'], .RSA ['n'] ['e']⟩ ['n'] ['e']
      (by decide) (by decide) (by decide) (by decide) (by decide),
    (verify_jwt_src_panics Nat c9dh (fun _ _ => none) c9mk
      (fun _ _ _ => none) 0 tokenHPS c9Jwks).2.2
      ⟨some ['k']⟩ ['k'] ⟨some ['k'], .RSA ['n'] ['e']⟩ ['n'] ['e'] 0
      (by decide) (by decide) (by decide) (by decide) (by decide) (by decide)⟩
